import Mathlib

/-!
Verification development for the Minecraft resource-pack diagnoser
(`src/main.py`).  The Python functions `fix_name`, `check_pack_mcmeta`,
`check_vanilla_json`, `check_custom_json`, `is_vanilla_json` and the
reconciliation tail of `check_files` are embedded as executable Lean
functions over a JSON value type.  Interactive confirmation (`ask`) is
modelled by explicit boolean decision parameters; file writes are modelled
by returning the would-be-written content together with flags.  Python
exceptions are modelled by an error type `PyErr`; the dispatch of
`diagnose`'s `except` clauses is `handle_error`.  Character-level string
predicates (`str.islower`, `str.lower`) are modelled on ASCII, which is
the alphabet of resource-pack names and of every concrete input used here.
-/

/-! ### ASCII character model (Python `str` predicates used by `fix_name`) -/

/-- Uppercase basic-latin letter test, as Python classifies `A`-`Z`. -/
def isUpperA (c : Char) : Bool := 65 ≤ c.toNat && c.toNat ≤ 90

/-- Lowercase basic-latin letter test, as Python classifies `a`-`z`. -/
def isLowerA (c : Char) : Bool := 97 ≤ c.toNat && c.toNat ≤ 122

/-- Cased-character test (for ASCII, exactly the letters). -/
def isCasedA (c : Char) : Bool := isUpperA c || isLowerA c

/-- Lowercasing of one character, as Python `str.lower` acts on ASCII. -/
def toLowerA (c : Char) : Char :=
  if 65 ≤ c.toNat ∧ c.toNat ≤ 90 then Char.ofNat (c.toNat + 32) else c

theorem char_toNat_ofNat (n : Nat) (h : n < 55296) : (Char.ofNat n).toNat = n := by
  rw [Char.ofNat, dif_pos (Or.inl h)]
  simp [Char.ofNatAux, Char.toNat, UInt32.toNat, BitVec.ofNatLt]

theorem char_toNat_lt (c : Char) : c.toNat < 1114112 := by
  rcases c.valid with h | h
  · exact Nat.lt_trans h (by decide)
  · exact h.2

theorem toNat_toLowerA (c : Char) :
    (toLowerA c).toNat =
      if 65 ≤ c.toNat ∧ c.toNat ≤ 90 then c.toNat + 32 else c.toNat := by
  unfold toLowerA
  split
  · next h => exact char_toNat_ofNat _ (by omega)
  · rfl

theorem isUpperA_toLowerA (c : Char) : isUpperA (toLowerA c) = false := by
  have h := toNat_toLowerA c
  unfold isUpperA
  by_cases hc : 65 ≤ c.toNat ∧ c.toNat ≤ 90
  · rw [if_pos hc] at h
    rw [h]
    simp only [Bool.eq_false_iff, ne_eq, Bool.and_eq_true, decide_eq_true_eq]
    omega
  · rw [if_neg hc] at h
    rw [h]
    simp only [Bool.eq_false_iff, ne_eq, Bool.and_eq_true, decide_eq_true_eq]
    omega

theorem toLowerA_eq_self_of_not_upper (c : Char) (h : isUpperA c = false) :
    toLowerA c = c := by
  unfold toLowerA
  unfold isUpperA at h
  rw [if_neg]
  intro hc
  simp only [Bool.and_eq_false_iff, decide_eq_false_iff_not] at h
  omega

theorem toLowerA_idem (c : Char) : toLowerA (toLowerA c) = toLowerA c :=
  toLowerA_eq_self_of_not_upper _ (isUpperA_toLowerA c)

theorem toLowerA_ne_space (c : Char) (h : c ≠ ' ') : toLowerA c ≠ ' ' := by
  intro he
  have := congrArg Char.toNat he
  rw [toNat_toLowerA] at this
  have hs : (' ' : Char).toNat = 32 := by decide
  rw [hs] at this
  split at this
  · omega
  · exact h (Char.eq_of_val_eq (by
      have : c.toNat = 32 := this
      have h32 : c.val.toNat = (' ' : Char).val.toNat := by
        simpa [Char.toNat] using this
      exact UInt32.toNat.inj h32))

theorem isCasedA_toLowerA (c : Char) : isCasedA (toLowerA c) = isCasedA c := by
  have h := toNat_toLowerA c
  unfold isCasedA isUpperA isLowerA
  by_cases hc : 65 ≤ c.toNat ∧ c.toNat ≤ 90
  · rw [if_pos hc] at h
    rw [h, Bool.eq_iff_iff]
    simp only [Bool.or_eq_true, Bool.and_eq_true, decide_eq_true_eq]
    omega
  · rw [if_neg hc] at h
    rw [h]

/-! ### Name Normalizer (`fix_name`, main.py lines 48-53)

`ask` is modelled by the boolean `confirm` (with auto-fix mode, `ask`
always answers `True`; otherwise it returns the operator's answer). -/

/-- Python `str.islower`: at least one cased character, and every cased
character is lowercase (equivalently on ASCII: no uppercase letter). -/
def pyIsLower (s : String) : Bool :=
  s.data.any (fun c => isCasedA c) && s.data.all (fun c => !isUpperA c)

/-- Python `' ' in string`. -/
def pyHasSpace (s : String) : Bool := s.data.any (fun c => c = ' ')

/-- Containment of an uppercase character (the spec's notion of a name
needing a fix). -/
def pyHasUpper (s : String) : Bool := s.data.any (fun c => isUpperA c)

/-- Python `string.replace(' ', '_')` (the pattern is a single character,
so the replacement is pointwise). -/
def pyReplaceSpace (s : String) : String :=
  ⟨s.data.map (fun c => if c = ' ' then '_' else c)⟩

/-- Python `string.lower()` on ASCII. -/
def pyLower (s : String) : String := ⟨s.data.map toLowerA⟩

/-- Embedding of `fix_name`.  Source:
`if string.islower() and ' ' not in string: return (False, string)`;
`if ask(...): return True, string.replace(' ', '_').lower()`;
`return False, string`. -/
def fix_name (confirm : Bool) (s : String) : Bool × String :=
  if pyIsLower s && !pyHasSpace s then (false, s)
  else if confirm then (true, pyLower (pyReplaceSpace s))
  else (false, s)

theorem fix_name_flag (confirm : Bool) (s : String) :
    (fix_name confirm s).1 = (confirm && !(pyIsLower s && !pyHasSpace s)) := by
  unfold fix_name
  by_cases h : (pyIsLower s && !pyHasSpace s) = true
  · simp [h]
  · simp only [Bool.not_eq_true] at h
    cases confirm <;> simp [h]

theorem fix_name_str (confirm : Bool) (s : String) :
    (fix_name confirm s).2 =
      if (fix_name confirm s).1 then pyLower (pyReplaceSpace s) else s := by
  unfold fix_name
  by_cases h : (pyIsLower s && !pyHasSpace s) = true
  · simp [h]
  · simp only [Bool.not_eq_true] at h
    cases confirm <;> simp [h]

theorem pyHasUpper_fixed (s : String) :
    pyHasUpper (pyLower (pyReplaceSpace s)) = false := by
  unfold pyHasUpper pyLower pyReplaceSpace
  simp only [List.any_eq_false, List.mem_map]
  rintro c ⟨d, _, rfl⟩
  simp [isUpperA_toLowerA d]

theorem pyHasSpace_fixed (s : String) :
    pyHasSpace (pyLower (pyReplaceSpace s)) = false := by
  unfold pyHasSpace pyLower pyReplaceSpace
  simp only [List.any_eq_false, List.mem_map]
  rintro c ⟨d, ⟨e, _, rfl⟩, rfl⟩
  have : (if e = ' ' then '_' else e) ≠ ' ' := by
    split
    · decide
    · next h => exact h
  simpa [decide_eq_true_iff] using toLowerA_ne_space _ this

theorem pyIsLower_of_no_upper (s : String) (hc : s.data.any isCasedA = true)
    (hu : pyHasUpper s = false) : pyIsLower s = true := by
  unfold pyIsLower
  unfold pyHasUpper at hu
  simp only [List.any_eq_false] at hu
  simp only [Bool.and_eq_true, List.all_eq_true]
  refine ⟨hc, fun c hcmem => ?_⟩
  simp [hu c hcmem]

theorem cased_fixed (s : String) :
    (pyLower (pyReplaceSpace s)).data.any isCasedA = s.data.any isCasedA := by
  unfold pyLower pyReplaceSpace
  simp only [List.any_map]
  congr 1
  funext c
  simp only [Function.comp]
  have hrep : isCasedA (if c = ' ' then '_' else c) = isCasedA c := by
    split
    · next h => subst h; decide
    · rfl
  rw [isCasedA_toLowerA, hrep]

/-- A string already satisfying the normal form test is returned unchanged
with flag `false`, for any confirmation decision. -/
theorem fix_name_normal (confirm : Bool) (s : String)
    (h : (pyIsLower s && !pyHasSpace s) = true) :
    fix_name confirm s = (false, s) := by
  unfold fix_name
  rw [if_pos h]

theorem pyLower_pyReplaceSpace_data (s : String) :
    (pyLower (pyReplaceSpace s)).data =
      s.data.map (fun c => toLowerA (if c = ' ' then '_' else c)) := by
  unfold pyLower pyReplaceSpace
  simp [List.map_map, Function.comp]

/-- The normalized form is a fixpoint of the normalization: replacing
spaces in a space-free string and lowercasing an uppercase-free string are
both the identity. -/
theorem pyFix_fixpoint (s : String) :
    pyLower (pyReplaceSpace (pyLower (pyReplaceSpace s))) =
      pyLower (pyReplaceSpace s) := by
  have hs := pyHasSpace_fixed s
  have hu := pyHasUpper_fixed s
  unfold pyHasSpace at hs
  unfold pyHasUpper at hu
  simp only [List.any_eq_false, decide_eq_true_eq] at hs hu
  apply String.ext
  rw [pyLower_pyReplaceSpace_data]
  conv_rhs => rw [← List.map_id ((pyLower (pyReplaceSpace s)).data)]
  apply List.map_congr_left
  intro c hcmem
  rw [if_neg (hs c hcmem)]
  exact toLowerA_eq_self_of_not_upper c (by simpa using hu c hcmem)

/-- The string component of `fix_name` is idempotent (same decision). -/
theorem fix_name_str_idem (confirm : Bool) (s : String) :
    (fix_name confirm ((fix_name confirm s).2)).2 = (fix_name confirm s).2 := by
  have hstr := fix_name_str confirm s
  by_cases hf : (fix_name confirm s).1 = true
  · rw [hf, if_pos rfl] at hstr
    rw [hstr]
    have hstr2 := fix_name_str confirm (pyLower (pyReplaceSpace s))
    by_cases hf2 : (fix_name confirm (pyLower (pyReplaceSpace s))).1 = true
    · rw [hf2, if_pos rfl] at hstr2
      rw [hstr2, pyFix_fixpoint]
    · simp only [Bool.not_eq_true] at hf2
      rw [hf2] at hstr2
      simpa using hstr2
  · simp only [Bool.not_eq_true] at hf
    rw [hf] at hstr
    simp only [Bool.false_eq_true, if_false] at hstr
    rw [hstr]
    exact hstr

/-! ### JSON documents

Parsed JSON values as produced by `json.load`.  Objects keep insertion
order (Python dicts are ordered) and are assumed to have unique keys, as
`json.load` collapses duplicates.  The types are mutually inductive so
that all operations are structurally recursive. -/

mutual
inductive JValue where
  | jstr (s : String)
  | jint (n : Int)
  | jbool (b : Bool)
  | jnull
  | jlist (xs : JList)
  | jobj (kvs : JObj)
deriving DecidableEq, Repr
inductive JList where
  | nil
  | cons (hd : JValue) (tl : JList)
deriving DecidableEq, Repr
inductive JObj where
  | nil
  | cons (key : String) (val : JValue) (tl : JObj)
deriving DecidableEq, Repr
end

def JList.toList : JList → List JValue
  | .nil => []
  | .cons hd tl => hd :: tl.toList

/-- Python `dict` subscript / membership: the value at a key, if present. -/
def JObj.lookup : JObj → String → Option JValue
  | .nil, _ => none
  | .cons k v tl, key => if k = key then some v else tl.lookup key

/-- Python `dict` item assignment: update in place, append if new. -/
def JObj.insert : JObj → String → JValue → JObj
  | .nil, key, v => .cons key v .nil
  | .cons k v' tl, key, v =>
    if k = key then .cons k v tl else .cons k v' (tl.insert key v)

/-! ### Python exceptions and the `diagnose` handler

`diagnose` (main.py lines 295-312) catches `ResourcePackError` (print the
message, wait, exit), then `NoQuickFix` (print guidance and offer to
restart the whole check), then any other `Exception` (print a traceback:
the generic crash path). -/

inductive PyErr where
  | noQuickFix (msg : String)
  | resourcePackError (msg : String)
  | keyError (key : String)
  | indexError
  | typeError (msg : String)
  | attributeError (msg : String)
  | unboundLocalError (name : String)
deriving DecidableEq, Repr

inductive DiagnoseOutcome where
  | fatalExit
  | restartOffered
  | genericCrash
deriving DecidableEq, Repr

deriving instance DecidableEq for Except

/-- Which `except` clause of `diagnose` handles each raised error. -/
def handle_error : PyErr → DiagnoseOutcome
  | .resourcePackError _ => .fatalExit
  | .noQuickFix _ => .restartOffered
  | _ => .genericCrash

/-! ### Subsequence search (for Python `in` on strings) -/

def seqStartsWith : List Char → List Char → Bool
  | [], _ => true
  | _ :: _, [] => false
  | a :: p, b :: l => decide (a = b) && seqStartsWith p l

def seqOccursIn (p : List Char) : List Char → Bool
  | [] => seqStartsWith p []
  | b :: l => seqStartsWith p (b :: l) || seqOccursIn p l

/-! ### Model Document Classifier (`is_vanilla_json`, main.py lines 175-182) -/

def texturesMissingMsg (filePath : String) : String :=
  "textures key not found in " ++ filePath

/-- Embedding of `is_vanilla_json`.  A missing `textures` key raises a
`ResourcePackError` (not a `NoQuickFix`).  Otherwise the returned Boolean
is the short-circuit conjunction
`"parent" in json and "layer0" in json["textures"] and
json["textures"]["layer0"] == f"item/(stem)"`.  When `json["textures"]`
is not a dict, Python evaluates `"layer0" in` it by substring search
(string), membership (list) or raises `TypeError`; a hit is then
subscripted with a string, raising `TypeError`.  Error messages are
abbreviated forms of the source f-strings. -/
def is_vanilla_json (filePath stem : String) (json : JObj) :
    Except PyErr Bool :=
  match json.lookup "textures" with
  | none => .error (.resourcePackError (texturesMissingMsg filePath))
  | some textures =>
    if json.lookup "parent" = none then .ok false
    else
      match textures with
      | .jobj tex =>
        match tex.lookup "layer0" with
        | none => .ok false
        | some v => .ok (decide (v = .jstr ("item/" ++ stem)))
      | .jstr s =>
        if seqOccursIn "layer0".data s.data then
          .error (.typeError "string indices must be integers")
        else .ok false
      | .jlist xs =>
        if (xs.toList).contains (.jstr "layer0") then
          .error (.typeError "list indices must be integers")
        else .ok false
      | _ => .error (.typeError "argument is not iterable")

/-- The predicate the spec states for the Standard classification: the
document has a textures map whose `layer0` entry equals `item/stem`
(stated from the spec's words, for comparison with `is_vanilla_json`). -/
def spec_is_standard (stem : String) (json : JObj) : Bool :=
  match json.lookup "textures" with
  | some (.jobj tex) => decide (tex.lookup "layer0" = some (.jstr ("item/" ++ stem)))
  | _ => false

/-! ### Override-List Validator (`check_vanilla_json`, main.py lines 119-152) -/

/-- Python `str()` rendering, as used in the duplicate f-string.  Only the
integer case is exercised by any claim; containers are abbreviated. -/
def pyStrOfJValue : JValue → String
  | .jint n => toString n
  | .jstr s => s
  | .jbool true => "True"
  | .jbool false => "False"
  | .jnull => "None"
  | .jlist _ => "[...]"
  | .jobj _ => "\x7b...\x7d"

def dupMsg (d : JValue) (filePath : String) : String :=
  "Duplicate custom_model_data(" ++ pyStrOfJValue d ++ ") in " ++ filePath ++ "."

def overridesMissingMsg (filePath : String) : String :=
  "overrides key not found in " ++ filePath ++ "."

def overridesNotListMsg (filePath : String) : String :=
  "overrides value is not an array in " ++ filePath ++ "."

/-- `override["predicate"]["custom_model_data"]`: a missing key raises
`KeyError` (carrying the key), a subscript on a non-dict raises
`TypeError`. -/
def getCMDv (ov : JValue) : Except PyErr JValue :=
  match ov with
  | .jobj kvs =>
    match kvs.lookup "predicate" with
    | none => .error (.keyError "predicate")
    | some (.jobj p) =>
      match p.lookup "custom_model_data" with
      | none => .error (.keyError "custom_model_data")
      | some v => .ok v
    | some _ => .error (.typeError "subscripted value is not a dict")
  | _ => .error (.typeError "subscripted value is not a dict")

/-- The list comprehension collecting each override's discriminator. -/
def extractCMDs : List JValue → Except PyErr (List JValue)
  | [] => .ok []
  | ov :: rest =>
    match getCMDv ov with
    | .error e => .error e
    | .ok v =>
      match extractCMDs rest with
      | .error e => .error e
      | .ok vs => .ok (v :: vs)

/-- The `try ... except KeyError as error: raise NoQuickFix(error.args[0])`
wrapper around the discriminator extraction: only `KeyError` is converted;
every other exception propagates unchanged. -/
def catchKeyError (r : Except PyErr (List JValue)) : Except PyErr (List JValue) :=
  match r with
  | .error (.keyError k) => .error (.noQuickFix k)
  | other => other

/-- The sequential duplicate scan: `last_custom_model_data` starts at `-1`
and each value is compared (`==`) with its predecessor only. -/
def findAdjacentDup : JValue → List JValue → Option JValue
  | _, [] => none
  | last, n :: rest => if n = last then some n else findAdjacentDup n rest

/-- Presence of two equal consecutive entries (the property the spec
states for the duplicate error). -/
def hasAdjacentDup : List JValue → Bool
  | a :: b :: rest => decide (a = b) || hasAdjacentDup (b :: rest)
  | _ => false

/-- The sort key comparisons.  `sorted` compares the raw discriminator
values with `<`; the claims quantify over integer discriminators, so the
embedding requires integers here and signals the `TypeError` Python would
raise on its first unsupported comparison otherwise. -/
def cmdInts : List JValue → Except PyErr (List Int)
  | [] => .ok []
  | .jint n :: rest =>
    match cmdInts rest with
    | .error e => .error e
    | .ok ns => .ok (n :: ns)
  | _ :: _ => .error (.typeError "comparison not supported between instances")

/-- Ordering of override entries by their extracted discriminator. -/
def cmdLE (a b : JValue × Int) : Prop := a.2 ≤ b.2

instance : DecidableRel cmdLE := fun a b => inferInstanceAs (Decidable (a.2 ≤ b.2))

instance : IsTotal (JValue × Int) cmdLE := ⟨fun a b => Int.le_total a.2 b.2⟩

instance : IsTrans (JValue × Int) cmdLE := ⟨fun _ _ _ => Int.le_trans⟩

/-- `sorted(json["overrides"], key=lambda x: x["predicate"]["custom_model_data"])`:
Python's sort is stable, so it is the stable insertion sort of the entries
keyed by their discriminators (computed once each, here pre-extracted and
zipped positionally). -/
def sortOverrides (ovs : List JValue) (ks : List Int) : List JValue :=
  ((ovs.zip ks).insertionSort cmdLE).map Prod.fst

/-- `json["overrides"][index]["model"]` followed by `fix_name` on it: a
missing key raises a (here uncaught) `KeyError`; `fix_name` on a
non-string value raises `AttributeError` at `.islower()`. -/
def getModelStr (ov : JValue) : Except PyErr String :=
  match ov with
  | .jobj kvs =>
    match kvs.lookup "model" with
    | some (.jstr s) => .ok s
    | some _ => .error (.attributeError "value has no attribute islower")
    | none => .error (.keyError "model")
  | _ => .error (.typeError "subscripted value is not a dict")

/-- The final loop of `check_vanilla_json`: normalize each entry's
`model` field in place and collect the written-back values. -/
def fixModels (nameConfirm : Nat → Bool) : Nat → List JValue → Except PyErr (List String)
  | _, [] => .ok []
  | i, ov :: rest =>
    match getModelStr ov with
    | .error e => .error e
    | .ok s =>
      match fixModels nameConfirm (i + 1) rest with
      | .error e => .error e
      | .ok ms => .ok ((fix_name (nameConfirm i) s).2 :: ms)

structure VanillaOut where
  /-- The returned list of (normalized) model reference identifiers. -/
  models : List String
  /-- Whether the not-in-ascending-order prompt (`ask`) was shown. -/
  sortPrompted : Bool
  /-- Whether the overrides list was reordered and the file rewritten. -/
  fileRewritten : Bool
  /-- The override entries the final loop ran over. -/
  finalOverrides : List JValue
deriving DecidableEq, Repr

/-- The tail of `check_vanilla_json` after the reorder decision: run the
model-name normalization loop over the (possibly reordered) entries. -/
def vanillaFinish (nameConfirm : Nat → Bool) (prompted rewritten : Bool)
    (current : List JValue) : Except PyErr VanillaOut :=
  match fixModels nameConfirm 0 current with
  | .error e => .error e
  | .ok models => .ok ⟨models, prompted, rewritten, current⟩

/-- The reorder step of `check_vanilla_json`: the prompt is shown iff the
stable re-sort differs from the original order (Python's `and`
short-circuits), the list is replaced and the file rewritten iff it
differs and the prompt is answered yes. -/
def vanillaSortPhase (sortConfirm : Bool) (nameConfirm : Nat → Bool)
    (ovs : List JValue) (ks : List Int) : Except PyErr VanillaOut :=
  vanillaFinish nameConfirm (decide (ovs ≠ sortOverrides ovs ks))
    (decide (ovs ≠ sortOverrides ovs ks) && sortConfirm)
    (if (decide (ovs ≠ sortOverrides ovs ks) && sortConfirm) = true
      then sortOverrides ovs ks else ovs)

/-- Embedding of `check_vanilla_json`.  `sortConfirm` answers the one
reordering prompt; `nameConfirm i` answers `fix_name`'s prompt for entry
`i`.  The empty-overrides subscript `json["overrides"][0]` raises
`IndexError`, which the `except KeyError` clause does not catch. -/
def check_vanilla_json (filePath : String) (sortConfirm : Bool)
    (nameConfirm : Nat → Bool) (json : JObj) : Except PyErr VanillaOut :=
  match json.lookup "overrides" with
  | none => .error (.noQuickFix (overridesMissingMsg filePath))
  | some (.jlist ovsL) =>
    match ovsL.toList with
    | [] => .error .indexError
    | ov0 :: rest =>
      match catchKeyError
          ((getCMDv ov0).bind (fun _ => extractCMDs (ov0 :: rest))) with
      | .error e => .error e
      | .ok cmds =>
        match findAdjacentDup (.jint (-1)) cmds with
        | some d => .error (.noQuickFix (dupMsg d filePath))
        | none =>
          match cmdInts cmds with
          | .error e => .error e
          | .ok ks => vanillaSortPhase sortConfirm nameConfirm (ov0 :: rest) ks
  | some _ => .error (.noQuickFix (overridesNotListMsg filePath))

/-! ### Custom-Document Validator (`check_custom_json`, main.py lines 155-172) -/

/-- The probe `'"#missing' in dumps(json)`.  In the serialized document,
the quote-then-`#missing` pattern occurs exactly when some string token
(an object key or a string value) starts with `#missing`, or contains a
literal quote (escaped as backslash-quote by `dumps`) followed directly by
`#missing`.  Indentation only adds whitespace around structure and cannot
produce or break the pattern. -/
def missingMarker (s : String) : Bool :=
  seqStartsWith "#missing".data s.data || seqOccursIn ('"' :: "#missing".data) s.data

mutual
def anyStrV (p : String → Bool) : JValue → Bool
  | .jstr s => p s
  | .jint _ => false
  | .jbool _ => false
  | .jnull => false
  | .jlist xs => anyStrL p xs
  | .jobj kvs => anyStrO p kvs
def anyStrL (p : String → Bool) : JList → Bool
  | .nil => false
  | .cons hd tl => anyStrV p hd || anyStrL p tl
def anyStrO (p : String → Bool) : JObj → Bool
  | .nil => false
  | .cons k hd tl => p k || anyStrV p hd || anyStrO p tl
end

def json_has_missing (json : JObj) : Bool := anyStrO missingMarker json

def texturesNotJsonMsg (filePath : String) : String :=
  "value of textures is not JSON in " ++ filePath

def elementsMissingMsg (filePath : String) : String :=
  "elements key not found in " ++ filePath

def missingTextureMsg (filePath : String) : String :=
  "#missing texture found in " ++ filePath

/-- The entries of `json["textures"]`, whose values `fix_name` will
receive: a non-string value raises `AttributeError` at `.islower()`. -/
def texEntries : JObj → Except PyErr (List (String × String))
  | .nil => .ok []
  | .cons k (.jstr s) tl =>
    match texEntries tl with
    | .error e => .error e
    | .ok rest => .ok ((k, s) :: rest)
  | .cons _ _ _ => .error (.attributeError "value has no attribute islower")

/-- The dict comprehension
`{key: fix_name(texture)[1] for key, texture in json["textures"].items()}`:
keys are kept, each value is normalized (each `fix_name` call asking its
own question). -/
def fixTextures (nameConfirm : Nat → Bool) : Nat → List (String × String) → List (String × String)
  | _, [] => []
  | i, (k, v) :: rest => (k, (fix_name (nameConfirm i) v).2) :: fixTextures nameConfirm (i + 1) rest

structure CustomOut where
  /-- The final `json["textures"]` map whose `.values()` are returned. -/
  textures : List (String × String)
  /-- Whether the combined textures fix was accepted and the file rewritten. -/
  fileRewritten : Bool
deriving DecidableEq, Repr

/-- Embedding of `check_custom_json`.  `combineConfirm` answers the one
combined invalid-textures prompt; `nameConfirm i` answers `fix_name`'s own
prompt for entry `i`.  `json["textures"]` is only replaced by the fixed
map when it differs and the combined fix is accepted; either way the
function returns the values of the (possibly replaced) map. -/
def check_custom_json (filePath : String) (combineConfirm : Bool)
    (nameConfirm : Nat → Bool) (json : JObj) : Except PyErr CustomOut :=
  match json.lookup "textures" with
  | none => .error (.keyError "textures")
  | some (.jobj tex) =>
    if json.lookup "elements" = none then
      .error (.noQuickFix (elementsMissingMsg filePath))
    else if json_has_missing json then
      .error (.noQuickFix (missingTextureMsg filePath))
    else
      match texEntries tex with
      | .error e => .error e
      | .ok entries =>
        let fixed := fixTextures nameConfirm 0 entries
        let differ : Bool := decide (entries ≠ fixed)
        let rewritten : Bool := differ && combineConfirm
        .ok ⟨if rewritten = true then fixed else entries, rewritten⟩
  | some _ => .error (.noQuickFix (texturesNotJsonMsg filePath))

/-! ### Metadata Validator (`check_pack_mcmeta`, main.py lines 56-86)

The file content is either unparseable or a parsed object.  Four decision
parameters answer the four possible `ask` prompts (reset on parse error,
reset on missing `pack`, default `pack_format`, default `description`).
On success the returned object is the content the final
`dump(json, file, indent=4)` writes; error results model uncaught
exceptions escaping the function. -/

inductive McmetaInput where
  | malformed
  | parsed (json : JObj)
deriving DecidableEq, Repr

def default_pack_json : JObj :=
  .cons "pack"
    (.jobj (.cons "pack_format" (.jint 8)
      (.cons "description" (.jstr "Fixed by WingedSeal-Bot") .nil))) .nil

/-- Embedding of `check_pack_mcmeta`.  Declining the reset after a parse
failure falls through to `if 'pack' not in json:` with the local `json`
never assigned, raising `UnboundLocalError`; declining the reset for a
missing `pack` key falls through to `json['pack']`, raising `KeyError`.
A `pack` value that is not a dict is approximated as `TypeError` (no claim
exercises it).  A `pack_format` value passes the integrality check exactly
when it is an integer (`type(x) == int`; booleans and other types fail). -/
def check_pack_mcmeta (resetOnParse resetOnPack fixFormat fixDesc : Bool)
    (input : McmetaInput) : Except PyErr JObj :=
  match input with
  | .malformed =>
    if resetOnParse then .ok default_pack_json
    else .error (.unboundLocalError "json")
  | .parsed json =>
    match json.lookup "pack" with
    | none =>
      if resetOnPack then .ok default_pack_json
      else .error (.keyError "pack")
    | some (.jobj pack) =>
      let pack1 :=
        match pack.lookup "pack_format" with
        | none => if fixFormat then pack.insert "pack_format" (.jint 8) else pack
        | some (.jint _) => pack
        | some _ => if fixFormat then pack.insert "pack_format" (.jint 8) else pack
      let pack2 :=
        match pack1.lookup "description" with
        | none =>
          if fixDesc then pack1.insert "description" (.jstr "Fixed by WingedSeal-Bot")
          else pack1
        | some _ => pack1
      .ok (json.insert "pack" (.jobj pack2))
    | some _ => .error (.typeError "membership test on unsupported type")

/-! ### Reconciliation report (`check_files`, main.py lines 233-247)

The directory walk itself is I/O; its result is the four accumulated sets.
The report stage appends one line per non-empty difference (Python's `if
diff:` is the non-emptiness test) and raises a single combined
`NoQuickFix` iff any line was appended. -/

def check_files_report (modelKeys modelFiles textureKeys textureFiles : Finset String) :
    Option PyErr :=
  let strings : List String :=
    (if (modelKeys \ modelFiles).Nonempty then ["File not found for model keys"] else []) ++
    (if (modelFiles \ modelKeys).Nonempty then ["Unused model files"] else []) ++
    (if (textureKeys \ textureFiles).Nonempty then ["File not found for texture keys"] else []) ++
    (if (textureFiles \ textureKeys).Nonempty then ["Unused texture files"] else [])
  if strings ≠ [] then
    some (.noQuickFix ("I got some unmatched names... " ++ String.intercalate ", " strings))
  else none

/-! ## Claims -/

/-! ### C2 — `fix_name` flag and normal form -/

/-- C2 counterexample: on `"123"` — a string with no uppercase character
and no space — `fix_name` (confirmation granted) still reports `true`,
because Python `islower()` is false for a string with no cased character.
The claimed iff (flag true iff uppercase or space present) fails here. -/
theorem c2_counterexample :
    pyHasUpper "123" = false ∧ pyHasSpace "123" = false ∧
      (fix_name true "123").1 = true := by decide

/-- C2 amended: the returned flag is true iff confirmation was granted and
the string fails Python's `islower`-and-no-space test (so a string with no
cased character at all is flagged despite containing no uppercase and no
space, and a declined confirmation always yields flag `false`); whenever
the flag is true the returned string is the input with spaces replaced by
underscores and every character lowercased, and otherwise the input is
returned unchanged. -/
theorem c2_fix_name_contract (confirm : Bool) (s : String) :
    (fix_name confirm s).1 = (confirm && !(pyIsLower s && !pyHasSpace s)) ∧
    (fix_name confirm s).2 =
      (if (confirm && !(pyIsLower s && !pyHasSpace s)) = true
        then pyLower (pyReplaceSpace s) else s) := by
  refine ⟨fix_name_flag confirm s, ?_⟩
  rw [fix_name_str, fix_name_flag]

/-! ### C5 — idempotence of the Name Normalizer -/

/-- C5 counterexample: `"_"` is its own normalized form (no uppercase, no
space, unchanged by the normalizer), yet `fix_name` on it reports
`needsFix = true` rather than the claimed `false`, because Python
`islower()` rejects a string with no cased character. -/
theorem c5_counterexample :
    (fix_name true "_").2 = "_" ∧ pyHasUpper "_" = false ∧
      pyHasSpace "_" = false ∧ (fix_name true "_").1 = true := by decide

/-- C5 amended: the normalizer's string output is idempotent — for any
fixed confirmation decision, re-normalizing the returned string returns
the same string — and any string passing Python's `islower`-and-no-space
test is returned unchanged with flag `false`; but the flag on an
already-normalized string is `false` only when the string has a cased
character (caseless strings are re-flagged). -/
theorem c5_fix_name_idem (confirm : Bool) (s : String) :
    (fix_name confirm ((fix_name confirm s).2)).2 = (fix_name confirm s).2 ∧
    ((pyIsLower s && !pyHasSpace s) = true → fix_name confirm s = (false, s)) :=
  ⟨fix_name_str_idem confirm s, fix_name_normal confirm s⟩

theorem c5_fix_name_idem_witness :
    (fix_name true ((fix_name true "A b").2)).2 = (fix_name true "A b").2 ∧
      fix_name true "abc" = (false, "abc") :=
  ⟨(c5_fix_name_idem true "A b").1, (c5_fix_name_idem true "abc").2 (by decide)⟩

/-! ### C4 — the combined reconciliation error -/

/-- C4: after the walk, the Reconciliation Engine raises exactly one
combined no-quick-fix error iff at least one of the four set differences
is non-empty; with all four empty no error is raised. -/
theorem c4_reconciliation_iff (a b c d : Finset String) :
    (check_files_report a b c d).isSome ↔
      ((a \ b).Nonempty ∨ (b \ a).Nonempty ∨ (c \ d).Nonempty ∨ (d \ c).Nonempty) := by
  by_cases h1 : (a \ b).Nonempty <;> by_cases h2 : (b \ a).Nonempty <;>
    by_cases h3 : (c \ d).Nonempty <;> by_cases h4 : (d \ c).Nonempty <;>
    simp [check_files_report, h1, h2, h3, h4]

/-! ### C6 — a document with no textures map -/

/-- C6 counterexample: a model document lacking a `textures` map raises a
`ResourcePackError`, which `diagnose` handles by printing and exiting — an
unrecoverable fatal error, not the restart-offered no-quick-fix kind the
claim states. -/
theorem c6_counterexample :
    is_vanilla_json "pack/assets/minecraft/models/item/x.json" "x" .nil
        = .error (.resourcePackError
            (texturesMissingMsg "pack/assets/minecraft/models/item/x.json")) ∧
    handle_error (.resourcePackError
        (texturesMissingMsg "pack/assets/minecraft/models/item/x.json"))
      = .fatalExit ∧
    DiagnoseOutcome.fatalExit ≠ DiagnoseOutcome.restartOffered := by decide

/-- C6 amended: for every model document lacking a textures map entirely,
classification raises a `ResourcePackError` — the unrecoverable
print-and-exit kind — rather than a no-quick-fix (restart-offered) error
or an auto-fix prompt. -/
theorem c6_no_textures_fatal (filePath stem : String) (json : JObj)
    (h : json.lookup "textures" = none) :
    is_vanilla_json filePath stem json
        = .error (.resourcePackError (texturesMissingMsg filePath)) ∧
    handle_error (.resourcePackError (texturesMissingMsg filePath)) = .fatalExit := by
  unfold is_vanilla_json
  rw [h]
  exact ⟨rfl, rfl⟩

theorem c6_no_textures_fatal_witness :
    is_vanilla_json "p" "s" .nil
        = .error (.resourcePackError (texturesMissingMsg "p")) ∧
      handle_error (.resourcePackError (texturesMissingMsg "p")) = .fatalExit :=
  c6_no_textures_fatal "p" "s" .nil (by decide)

/-! ### C8 — declined fixes in the metadata check -/

def mcmetaNoFormat : JObj :=
  .cons "pack" (.jobj (.cons "description" (.jstr "d") .nil)) .nil

/-- C8: declining the fix for a missing `pack_format` indeed leaves the
file without the key and the function completes normally (third
conjunct); but declining the offered reset after a parse failure crashes —
the code falls through with the local `json` never assigned, raising an
uncaught `UnboundLocalError` handled only by the generic crash path —
contradicting the claim that a declined fix never stops the run.  The
spec's stated intent (declined fixes leave the issue unresolved without
stopping) is taken as correct and the fall-through as the code bug. -/
theorem c8_decline_behavior :
    check_pack_mcmeta false false false false .malformed
        = .error (.unboundLocalError "json") ∧
    handle_error (.unboundLocalError "json") = .genericCrash ∧
    check_pack_mcmeta false false false false (.parsed mcmetaNoFormat)
        = .ok mcmetaNoFormat ∧
    (default_pack_json.lookup "pack").isSome = true := by decide

/-! ### C3 — Standard classification -/

def swordNoParent : JObj :=
  .cons "textures" (.jobj (.cons "layer0" (.jstr "item/sword") .nil))
    (.cons "overrides" (.jlist .nil) .nil)

/-- C3 counterexample: a document for file `sword.json` whose
`textures.layer0` equals `item/sword` — satisfying the claim's whole
predicate — is nevertheless classified Custom (`.ok false`), because the
code additionally requires a `parent` key, which the claim omits. -/
theorem c3_counterexample :
    spec_is_standard "sword" swordNoParent = true ∧
      is_vanilla_json "sword.json" "sword" swordNoParent = .ok false := by decide

/-- C3 amended: for every model document whose textures value is a map,
the classifier marks it Standard iff it has a `parent` key AND the map has
a `layer0` entry equal to the literal string `item/<stem>`; every
document not satisfying this conjunction is treated as Custom. -/
theorem c3_standard_iff (filePath stem : String) (json : JObj) (tex : JObj)
    (h : json.lookup "textures" = some (.jobj tex)) :
    is_vanilla_json filePath stem json =
      .ok (decide (json.lookup "parent" ≠ none) &&
           decide (tex.lookup "layer0" = some (.jstr ("item/" ++ stem)))) := by
  unfold is_vanilla_json
  rw [h]
  dsimp only
  by_cases hp : json.lookup "parent" = none
  · simp [hp]
  · rw [if_neg hp]
    cases hl : tex.lookup "layer0" with
    | none => simp [hl, hp]
    | some v => simp [hl, hp]

def swordWithParent : JObj :=
  .cons "parent" (.jstr "item/generated")
    (.cons "textures" (.jobj (.cons "layer0" (.jstr "item/sword") .nil)) .nil)

theorem c3_standard_iff_witness :
    is_vanilla_json "sword.json" "sword" swordWithParent = .ok true := by
  have h := c3_standard_iff "sword.json" "sword" swordWithParent
    (.cons "layer0" (.jstr "item/sword") .nil) (by decide)
  rw [h]
  decide

/-! ### C10 — empty overrides list -/

/-- C10: a document whose `overrides` key holds an empty list makes
`check_vanilla_json` raise `IndexError` at `json["overrides"][0]`; only
`KeyError` is converted to `NoQuickFix`, so the `IndexError` escapes and
`diagnose` handles it on the generic-crash path, not the no-quick-fix
restart path. -/
theorem c10_empty_overrides (filePath : String) (sortConfirm : Bool)
    (nameConfirm : Nat → Bool) (json : JObj)
    (h : json.lookup "overrides" = some (.jlist .nil)) :
    check_vanilla_json filePath sortConfirm nameConfirm json = .error .indexError ∧
    handle_error .indexError = .genericCrash ∧
    ∀ m, PyErr.indexError ≠ PyErr.noQuickFix m := by
  unfold check_vanilla_json
  rw [h]
  exact ⟨rfl, rfl, fun m hm => by cases hm⟩

def emptyOverridesDoc : JObj :=
  .cons "parent" (.jstr "item/generated")
    (.cons "textures" (.jobj (.cons "layer0" (.jstr "item/x") .nil))
      (.cons "overrides" (.jlist .nil) .nil))

theorem c10_empty_overrides_witness :
    check_vanilla_json "x.json" false (fun _ => false) emptyOverridesDoc
        = .error .indexError ∧
      handle_error .indexError = .genericCrash ∧
      ∀ m, PyErr.indexError ≠ PyErr.noQuickFix m :=
  c10_empty_overrides "x.json" false (fun _ => false) emptyOverridesDoc (by decide)

/-! ### C7 — values returned by the Custom-Document Validator -/

def customDecline : JObj :=
  .cons "textures" (.jobj (.cons "0" (.jstr "My Tex") .nil))
    (.cons "elements" (.jlist .nil) .nil)

/-- C7 counterexample: a Custom document passing all preconditions whose
texture value is `"My Tex"` — with every confirmation declined — returns
that raw value unchanged: the returned set is not normalized (it contains
an uppercase letter and a space), contradicting the claim as stated. -/
theorem c7_counterexample :
    check_custom_json "m.json" false (fun _ => false) customDecline
        = .ok ⟨[("0", "My Tex")], false⟩ ∧
    pyHasUpper "My Tex" = true ∧ pyHasSpace "My Tex" = true := by decide

theorem fix_name_true_no_upper_space (s : String) :
    pyHasUpper (fix_name true s).2 = false ∧ pyHasSpace (fix_name true s).2 = false := by
  unfold fix_name
  by_cases h : (pyIsLower s && !pyHasSpace s) = true
  · rw [if_pos h]
    simp only [Bool.and_eq_true, Bool.not_eq_true'] at h
    constructor
    · unfold pyIsLower at h
      unfold pyHasUpper
      simp only [Bool.and_eq_true, List.all_eq_true] at h
      simp only [List.any_eq_false]
      intro c hc
      simpa using h.1.2 c hc
    · exact h.2
  · rw [if_neg h, if_pos rfl]
    exact ⟨pyHasUpper_fixed s, pyHasSpace_fixed s⟩

theorem fixTextures_fst (nc : Nat → Bool) (i : Nat) (l : List (String × String)) :
    (fixTextures nc i l).map Prod.fst = l.map Prod.fst := by
  induction l generalizing i with
  | nil => rfl
  | cons kv rest ih =>
    cases kv with
    | mk k v => simp [fixTextures, ih]

theorem fixTextures_snd_all_yes (i : Nat) (l : List (String × String)) :
    (fixTextures (fun _ => true) i l).map Prod.snd
      = l.map (fun kv => (fix_name true kv.2).2) := by
  induction l generalizing i with
  | nil => rfl
  | cons kv rest ih =>
    cases kv with
    | mk k v => simp [fixTextures, ih]

/-- C7 amended: for every Custom-shaped document that passes its
preconditions, when every confirmation is answered yes (as in auto-fix
mode) the validator returns the values — not the slot keys — of the
textures map with each value normalized: the keys are preserved, each
returned value is the normalizer's output for the corresponding original
value, and every returned value contains no uppercase character and no
space.  (With a declined confirmation the original, possibly unnormalized
values are returned instead.) -/
theorem c7_custom_normalized (filePath : String) (json : JObj) (tex : JObj)
    (entries : List (String × String)) (out : CustomOut)
    (htex : json.lookup "textures" = some (.jobj tex))
    (hent : texEntries tex = .ok entries)
    (hok : check_custom_json filePath true (fun _ => true) json = .ok out) :
    out.textures.map Prod.fst = entries.map Prod.fst ∧
    out.textures.map Prod.snd = entries.map (fun kv => (fix_name true kv.2).2) ∧
    ∀ v ∈ out.textures.map Prod.snd, pyHasUpper v = false ∧ pyHasSpace v = false := by
  unfold check_custom_json at hok
  rw [htex] at hok
  dsimp only at hok
  by_cases he : json.lookup "elements" = none
  · rw [if_pos he] at hok
    cases hok
  · rw [if_neg he] at hok
    by_cases hm : json_has_missing json = true
    · rw [if_pos hm] at hok
      cases hok
    · rw [if_neg hm] at hok
      rw [hent] at hok
      dsimp only at hok
      have htx : out.textures = fixTextures (fun _ => true) 0 entries := by
        by_cases hd : entries = fixTextures (fun _ => true) 0 entries
        · rw [← hd] at hok ⊢
          simp at hok
          rw [← hok]
        · have hcond : (decide (entries ≠ fixTextures (fun _ => true) 0 entries) && true) = true := by
            simp [hd]
          rw [hcond] at hok
          simp at hok
          rw [← hok]
      refine ⟨?_, ?_, ?_⟩
      · rw [htx, fixTextures_fst]
      · rw [htx, fixTextures_snd_all_yes]
      · rw [htx, fixTextures_snd_all_yes]
        intro v hv
        rw [List.mem_map] at hv
        obtain ⟨kv, _, rfl⟩ := hv
        exact fix_name_true_no_upper_space kv.2

theorem c7_custom_normalized_witness :
    (CustomOut.mk [("0", "my_tex")] true).textures.map Prod.fst
        = [("0", "My Tex")].map Prod.fst ∧
    (CustomOut.mk [("0", "my_tex")] true).textures.map Prod.snd
        = [("0", "My Tex")].map (fun kv => (fix_name true kv.2).2) ∧
    ∀ v ∈ (CustomOut.mk [("0", "my_tex")] true).textures.map Prod.snd,
      pyHasUpper v = false ∧ pyHasSpace v = false :=
  c7_custom_normalized "m.json" customDecline
    (.cons "0" (.jstr "My Tex") .nil) [("0", "My Tex")]
    (CustomOut.mk [("0", "my_tex")] true) (by decide) (by decide) (by decide)

/-! ### C1 — the duplicate-discriminator error -/

theorem findAdjacentDup_isSome (last : JValue) (l : List JValue) :
    (findAdjacentDup last l).isSome = hasAdjacentDup (last :: l) := by
  induction l generalizing last with
  | nil => rfl
  | cons n rest ih =>
    have hr : hasAdjacentDup (last :: n :: rest)
        = (decide (last = n) || hasAdjacentDup (n :: rest)) := rfl
    rw [hr]
    unfold findAdjacentDup
    by_cases h : n = last
    · subst h
      simp
    · rw [if_neg h, ih]
      have hd : decide (last = n) = false := by
        simp
        exact fun he => h he.symm
      rw [hd, Bool.false_or]

theorem getModelStr_error_nqf (ov : JValue) (m : String)
    (h : getModelStr ov = .error (.noQuickFix m)) : False := by
  unfold getModelStr at h
  cases ov <;> try exact (by cases h)
  case jobj kvs =>
    dsimp only at h
    rcases hl : kvs.lookup "model" with _ | v
    · rw [hl] at h
      cases h
    · rw [hl] at h
      cases v <;> cases h

theorem fixModels_error_nqf (nc : Nat → Bool) (i : Nat) (l : List JValue)
    (m : String) (h : fixModels nc i l = .error (.noQuickFix m)) : False := by
  induction l generalizing i with
  | nil => cases h
  | cons ov rest ih =>
    unfold fixModels at h
    cases hg : getModelStr ov with
    | error e =>
      rw [hg] at h
      cases h
      exact getModelStr_error_nqf ov m hg
    | ok s =>
      rw [hg] at h
      cases hrest : fixModels nc (i + 1) rest with
      | error e =>
        rw [hrest] at h
        cases h
        exact ih (i + 1) hrest
      | ok ms =>
        rw [hrest] at h
        cases h

theorem cmdInts_error_nqf (l : List JValue) (m : String)
    (h : cmdInts l = .error (.noQuickFix m)) : False := by
  induction l with
  | nil => cases h
  | cons v rest ih =>
    unfold cmdInts at h
    cases v <;> try exact (by cases h)
    case jint n =>
      dsimp only at h
      cases hrest : cmdInts rest with
      | error e =>
        rw [hrest] at h
        cases h
        exact ih hrest
      | ok ns =>
        rw [hrest] at h
        cases h

theorem vanillaFinish_error_nqf (nc : Nat → Bool) (p r : Bool)
    (cur : List JValue) (m : String)
    (h : vanillaFinish nc p r cur = .error (.noQuickFix m)) : False := by
  unfold vanillaFinish at h
  cases hm : fixModels nc 0 cur with
  | error e =>
    rw [hm] at h
    cases h
    exact fixModels_error_nqf nc 0 cur m hm
  | ok ms =>
    rw [hm] at h
    cases h

theorem vanillaSortPhase_error_nqf (sc : Bool) (nc : Nat → Bool)
    (ovs : List JValue) (ks : List Int) (m : String)
    (h : vanillaSortPhase sc nc ovs ks = .error (.noQuickFix m)) : False := by
  unfold vanillaSortPhase at h
  exact vanillaFinish_error_nqf _ _ _ _ _ h

theorem extractCMDs_head_ok (ov : JValue) (rest : List JValue)
    (cmds : List JValue) (h : extractCMDs (ov :: rest) = .ok cmds) :
    ∃ v, getCMDv ov = .ok v := by
  unfold extractCMDs at h
  cases hg : getCMDv ov with
  | error e => rw [hg] at h; cases h
  | ok v => exact ⟨v, rfl⟩

/-- C1 amended: the duplicate error is raised iff two equal discriminator
values appear consecutively in the original order, OR the first
discriminator equals `-1` — the initial value of the scan's
previous-value variable, which makes a leading `-1` compare equal to a
nonexistent predecessor.  Equivalently: iff the list prefixed with the
sentinel `-1` has an adjacent equal pair.  Non-adjacent duplicates are
still not flagged. -/
theorem c1_dup_error_iff (filePath : String) (sortConfirm : Bool)
    (nameConfirm : Nat → Bool) (json : JObj) (ovsL : JList) (ov0 : JValue)
    (rest : List JValue) (cmds : List JValue)
    (hov : json.lookup "overrides" = some (.jlist ovsL))
    (hL : ovsL.toList = ov0 :: rest)
    (hex : extractCMDs (ov0 :: rest) = .ok cmds) :
    (∃ d, check_vanilla_json filePath sortConfirm nameConfirm json
        = .error (.noQuickFix (dupMsg d filePath)))
      ↔ hasAdjacentDup (.jint (-1) :: cmds) = true := by
  obtain ⟨v0, hv0⟩ := extractCMDs_head_ok ov0 rest cmds hex
  have hbind : catchKeyError
      ((getCMDv ov0).bind (fun _ => extractCMDs (ov0 :: rest))) = .ok cmds := by
    rw [hv0]
    show catchKeyError (extractCMDs (ov0 :: rest)) = .ok cmds
    rw [hex]
    rfl
  unfold check_vanilla_json
  rw [hov]
  dsimp only
  rw [hL]
  dsimp only
  rw [hbind]
  dsimp only
  rw [← findAdjacentDup_isSome]
  cases hd : findAdjacentDup (.jint (-1)) cmds with
  | some d =>
    simp only [Option.isSome_some]
    constructor
    · intro _; trivial
    · intro _; exact ⟨d, rfl⟩
  | none =>
    simp only [Option.isSome_none]
    constructor
    · rintro ⟨d, hres⟩
      exfalso
      cases hk : cmdInts cmds with
      | error e =>
        rw [hk] at hres
        cases hres
        exact cmdInts_error_nqf cmds _ hk
      | ok ks =>
        rw [hk] at hres
        exact vanillaSortPhase_error_nqf _ _ _ _ _ hres
    · intro hfalse
      cases hfalse

def dupSentinelDoc : JObj :=
  .cons "parent" (.jstr "item/generated")
    (.cons "textures" (.jobj (.cons "layer0" (.jstr "item/x") .nil))
      (.cons "overrides" (.jlist (.cons (.jobj
        (.cons "predicate" (.jobj (.cons "custom_model_data" (.jint (-1)) .nil))
          (.cons "model" (.jstr "item/custom/a") .nil))) .nil)) .nil))

/-- C1 counterexample: a Standard-shaped document whose single override
has discriminator `-1` raises the duplicate error even though its
discriminator list `[-1]` has no two equal consecutive values: the scan's
previous-value variable starts at `-1`, so a leading `-1` is reported as a
duplicate.  The claimed iff (duplicate error iff an adjacent equal pair
exists) fails here. -/
theorem c1_counterexample :
    is_vanilla_json "x.json" "x" dupSentinelDoc = .ok true ∧
    check_vanilla_json "x.json" false (fun _ => false) dupSentinelDoc
        = .error (.noQuickFix (dupMsg (.jint (-1)) "x.json")) ∧
    hasAdjacentDup [.jint (-1)] = false := by decide

def dupAdjacentDoc : JObj :=
  .cons "overrides" (.jlist
    (.cons (.jobj (.cons "predicate"
        (.jobj (.cons "custom_model_data" (.jint 2) .nil))
      (.cons "model" (.jstr "item/custom/a") .nil)))
    (.cons (.jobj (.cons "predicate"
        (.jobj (.cons "custom_model_data" (.jint 2) .nil))
      (.cons "model" (.jstr "item/custom/b") .nil))) .nil))) .nil

theorem c1_dup_error_iff_witness :
    (∃ d, check_vanilla_json "y.json" false (fun _ => false) dupAdjacentDoc
        = .error (.noQuickFix (dupMsg d "y.json")))
      ↔ hasAdjacentDup [.jint (-1), .jint 2, .jint 2] = true :=
  c1_dup_error_iff "y.json" false (fun _ => false) dupAdjacentDoc
    (.cons (.jobj (.cons "predicate"
        (.jobj (.cons "custom_model_data" (.jint 2) .nil))
      (.cons "model" (.jstr "item/custom/a") .nil)))
    (.cons (.jobj (.cons "predicate"
        (.jobj (.cons "custom_model_data" (.jint 2) .nil))
      (.cons "model" (.jstr "item/custom/b") .nil))) .nil))
    (.jobj (.cons "predicate"
        (.jobj (.cons "custom_model_data" (.jint 2) .nil))
      (.cons "model" (.jstr "item/custom/a") .nil)))
    [.jobj (.cons "predicate"
        (.jobj (.cons "custom_model_data" (.jint 2) .nil))
      (.cons "model" (.jstr "item/custom/b") .nil))]
    [.jint 2, .jint 2]
    (by decide) (by decide) (by decide)

/-! ### C9 — sorted override lists -/

theorem extractCMDs_length (l : List JValue) (cmds : List JValue)
    (h : extractCMDs l = .ok cmds) : cmds.length = l.length := by
  induction l generalizing cmds with
  | nil => cases h; rfl
  | cons ov rest ih =>
    unfold extractCMDs at h
    cases hg : getCMDv ov with
    | error e => rw [hg] at h; cases h
    | ok v =>
      rw [hg] at h
      cases hr : extractCMDs rest with
      | error e => rw [hr] at h; cases h
      | ok vs =>
        rw [hr] at h
        cases h
        simp [ih vs hr]

theorem cmdInts_length (l : List JValue) (ks : List Int)
    (h : cmdInts l = .ok ks) : ks.length = l.length := by
  induction l generalizing ks with
  | nil => cases h; rfl
  | cons v rest ih =>
    unfold cmdInts at h
    cases v <;> try exact (by cases h)
    case jint n =>
      dsimp only at h
      cases hr : cmdInts rest with
      | error e => rw [hr] at h; cases h
      | ok ns =>
        rw [hr] at h
        cases h
        simp [ih ns hr]

/-- Re-sorting an already ascending list leaves it unchanged: the zipped
entries are sorted for the entry ordering, on which the stable insertion
sort is the identity. -/
theorem sortOverrides_sorted_eq (ovs : List JValue) (ks : List Int)
    (hlen : ovs.length = ks.length) (hsort : List.Sorted (· ≤ ·) ks) :
    sortOverrides ovs ks = ovs := by
  unfold sortOverrides
  have hmap : (ovs.zip ks).map Prod.snd = ks :=
    List.map_snd_zip ovs ks (le_of_eq hlen.symm)
  have hzip : List.Sorted cmdLE (ovs.zip ks) := by
    have h2 : List.Pairwise (fun a b : JValue × Int => a.2 ≤ b.2) (ovs.zip ks) := by
      rw [← List.pairwise_map (f := Prod.snd)]
      rw [hmap]
      exact hsort
    exact h2
  rw [List.Sorted.insertionSort_eq hzip]
  exact List.map_fst_zip ovs ks (le_of_eq hlen)

/-- Stability of the insertion sort under the entry ordering: filtering
for any one key value returns the entries in their original order. -/
theorem filter_orderedInsert_key (a : JValue × Int) (l : List (JValue × Int)) (k : Int) :
    (List.orderedInsert cmdLE a l).filter (fun x => decide (x.2 = k)) =
      if a.2 = k then a :: l.filter (fun x => decide (x.2 = k))
      else l.filter (fun x => decide (x.2 = k)) := by
  induction l with
  | nil =>
    by_cases h : a.2 = k <;> simp [List.orderedInsert, List.filter, h]
  | cons b tl ih =>
    by_cases hab : cmdLE a b
    · rw [List.orderedInsert_of_le cmdLE tl hab]
      by_cases hak : a.2 = k <;> simp [List.filter_cons, hak]
    · have hstep : List.orderedInsert cmdLE a (b :: tl)
          = b :: List.orderedInsert cmdLE a tl := by
        rw [List.orderedInsert, if_neg hab]
      rw [hstep]
      by_cases hak : a.2 = k
      · have hbk : ¬ b.2 = k := by
          unfold cmdLE at hab
          omega
        simp [List.filter_cons, hbk, hak, ih]
      · simp [List.filter_cons, hak, ih]

theorem insertionSort_filter_key (l : List (JValue × Int)) (k : Int) :
    ((l.insertionSort cmdLE).filter (fun x => decide (x.2 = k))) =
      l.filter (fun x => decide (x.2 = k)) := by
  induction l with
  | nil => rfl
  | cons a tl ih =>
    have hins : (a :: tl).insertionSort cmdLE
        = List.orderedInsert cmdLE a (tl.insertionSort cmdLE) := rfl
    rw [hins, filter_orderedInsert_key]
    by_cases hak : a.2 = k
    · rw [if_pos hak, ih]
      simp [List.filter_cons, hak]
    · rw [if_neg hak, ih]
      simp [List.filter_cons, hak]

theorem vanillaFinish_ok_fields (nc : Nat → Bool) (p r : Bool)
    (cur : List JValue) (out : VanillaOut)
    (h : vanillaFinish nc p r cur = .ok out) :
    out.sortPrompted = p ∧ out.fileRewritten = r ∧ out.finalOverrides = cur := by
  unfold vanillaFinish at h
  cases hm : fixModels nc 0 cur with
  | error e => rw [hm] at h; cases h
  | ok ms =>
    rw [hm] at h
    cases h
    exact ⟨rfl, rfl, rfl⟩

/-- C9: for an override list whose discriminators are already ascending,
the re-sort is the identity, so no reordering prompt is issued and no
rewrite happens (the run proceeds to the name-fixing loop with both flags
false, or raises the duplicate error when the ascent is not strict or
starts at the sentinel — still without prompting); and the computed
reordering on any entry list is the stable sort: sorted output, a
permutation of the input, preserving the original relative order of
entries with equal discriminators. -/
theorem c9_sorted_noop (filePath : String) (sortConfirm : Bool)
    (nameConfirm : Nat → Bool) (json : JObj) (ovsL : JList) (ov0 : JValue)
    (rest : List JValue) (cmds : List JValue) (ks : List Int)
    (hov : json.lookup "overrides" = some (.jlist ovsL))
    (hL : ovsL.toList = ov0 :: rest)
    (hex : extractCMDs (ov0 :: rest) = .ok cmds)
    (hk : cmdInts cmds = .ok ks)
    (hsort : List.Sorted (· ≤ ·) ks) :
    sortOverrides (ov0 :: rest) ks = ov0 :: rest ∧
    (check_vanilla_json filePath sortConfirm nameConfirm json
        = vanillaFinish nameConfirm false false (ov0 :: rest) ∨
      ∃ d, check_vanilla_json filePath sortConfirm nameConfirm json
        = .error (.noQuickFix (dupMsg d filePath))) ∧
    (∀ out, check_vanilla_json filePath sortConfirm nameConfirm json = .ok out →
      out.sortPrompted = false ∧ out.fileRewritten = false ∧
        out.finalOverrides = ov0 :: rest) ∧
    (∀ l : List (JValue × Int),
      List.Sorted cmdLE (l.insertionSort cmdLE) ∧
      (l.insertionSort cmdLE).Perm l ∧
      (∀ k : Int, (l.insertionSort cmdLE).filter (fun x => decide (x.2 = k))
        = l.filter (fun x => decide (x.2 = k)))) := by
  have hlen1 : cmds.length = (ov0 :: rest).length := extractCMDs_length _ _ hex
  have hlen2 : ks.length = cmds.length := cmdInts_length _ _ hk
  have heq : sortOverrides (ov0 :: rest) ks = ov0 :: rest :=
    sortOverrides_sorted_eq _ _ ((hlen2.trans hlen1).symm) hsort
  obtain ⟨v0, hv0⟩ := extractCMDs_head_ok ov0 rest cmds hex
  have hbind : catchKeyError
      ((getCMDv ov0).bind (fun _ => extractCMDs (ov0 :: rest))) = .ok cmds := by
    rw [hv0]
    show catchKeyError (extractCMDs (ov0 :: rest)) = .ok cmds
    rw [hex]
    rfl
  have hres : check_vanilla_json filePath sortConfirm nameConfirm json
      = vanillaFinish nameConfirm false false (ov0 :: rest) ∨
      ∃ d, check_vanilla_json filePath sortConfirm nameConfirm json
        = .error (.noQuickFix (dupMsg d filePath)) := by
    unfold check_vanilla_json
    rw [hov]
    dsimp only
    rw [hL]
    dsimp only
    rw [hbind]
    dsimp only
    cases hd : findAdjacentDup (.jint (-1)) cmds with
    | some d =>
      right
      exact ⟨d, rfl⟩
    | none =>
      dsimp only
      rw [hk]
      dsimp only
      left
      unfold vanillaSortPhase
      have hdec : decide ((ov0 :: rest) ≠ sortOverrides (ov0 :: rest) ks) = false := by
        simp [heq]
      rw [hdec]
      simp only [Bool.false_and]
      simp
  refine ⟨heq, hres, ?_, ?_⟩
  · intro out hout
    rcases hres with h | ⟨d, h⟩
    · rw [h] at hout
      exact vanillaFinish_ok_fields _ _ _ _ _ hout
    · rw [h] at hout
      cases hout
  · intro l
    exact ⟨List.sorted_insertionSort cmdLE l, List.perm_insertionSort cmdLE l,
      fun k => insertionSort_filter_key l k⟩

def ovA : JValue :=
  .jobj (.cons "predicate" (.jobj (.cons "custom_model_data" (.jint 1) .nil))
    (.cons "model" (.jstr "item/custom/a") .nil))

def ovB : JValue :=
  .jobj (.cons "predicate" (.jobj (.cons "custom_model_data" (.jint 2) .nil))
    (.cons "model" (.jstr "item/custom/b") .nil))

def sortedOverridesDoc : JObj :=
  .cons "overrides" (.jlist (.cons ovA (.cons ovB .nil))) .nil

theorem c9_sorted_noop_witness :
    sortOverrides [ovA, ovB] [1, 2] = [ovA, ovB] ∧
    ((VanillaOut.mk ["item/custom/a", "item/custom/b"] false false
        [ovA, ovB]).sortPrompted = false ∧
     (VanillaOut.mk ["item/custom/a", "item/custom/b"] false false
        [ovA, ovB]).fileRewritten = false ∧
     (VanillaOut.mk ["item/custom/a", "item/custom/b"] false false
        [ovA, ovB]).finalOverrides = [ovA, ovB]) :=
  ⟨(c9_sorted_noop "z.json" true (fun _ => true) sortedOverridesDoc
      (.cons ovA (.cons ovB .nil)) ovA [ovB] [.jint 1, .jint 2] [1, 2]
      (by decide) (by decide) (by decide) (by decide) (by decide)).1,
   (c9_sorted_noop "z.json" true (fun _ => true) sortedOverridesDoc
      (.cons ovA (.cons ovB .nil)) ovA [ovB] [.jint 1, .jint 2] [1, 2]
      (by decide) (by decide) (by decide) (by decide) (by decide)).2.2.1
    (VanillaOut.mk ["item/custom/a", "item/custom/b"] false false [ovA, ovB])
    (by decide)⟩
